import Mathlib

/-
Verification of the Luzern bus monitor (home_assistant_bus_monitor.py).

The program's strings are modelled as `List Char` (Python `str` is a
sequence of code points), and the handful of Python string primitives the
program uses (`in`, `split`, `replace`, `strip`, `startswith`) are embedded
with Python's semantics.  Numbers are `Int`/`Nat`.  The two external
effects — reading the config file and performing the stationboard HTTP
request — are modelled as explicit inputs (`ReadResult`, `FetchResult`),
and the external datetime library (ISO parsing into an instant, and the
rendering of a Europe/Zurich zoned datetime back to an ISO string) is an
explicit environment `TimeEnv`; an instant is an `Int` of epoch seconds.
-/

namespace BusMonitor

/-! ## Python string primitives -/

/-- Python `needle in hay` for strings: `true` iff `needle` occurs as a
contiguous (possibly empty) substring of `hay`. -/
def pyIn (needle : List Char) : List Char → Bool
  | [] => needle.isEmpty
  | c :: t => needle.isPrefixOf (c :: t) || pyIn needle t

/-- Python `s.split(sep)` for a one-character separator `sep`:
splits on every occurrence, keeping empty pieces. -/
def pySplit1 (sep : Char) : List Char → List (List Char)
  | [] => [[]]
  | c :: t =>
    if c = sep then [] :: pySplit1 sep t
    else
      match pySplit1 sep t with
      | [] => [[c]]
      | h :: r => (c :: h) :: r

/-- Helper for `pyReplace`, structurally recursive on a fuel argument
(`fuel ≥ length of the string` makes the fuel-exhausted case unreachable). -/
def pyReplaceFuel (old new : List Char) : Nat → List Char → List Char
  | _, [] => []
  | 0, s => s
  | fuel + 1, c :: t =>
    if old ≠ [] ∧ old.isPrefixOf (c :: t) then
      new ++ pyReplaceFuel old new fuel ((c :: t).drop old.length)
    else
      c :: pyReplaceFuel old new fuel t

/-- Python `s.replace(old, new)` for nonempty `old`: replaces every
non-overlapping occurrence, scanning left to right. -/
def pyReplace (old new s : List Char) : List Char :=
  pyReplaceFuel old new s.length s

/-- Python `s.strip()`: remove leading and trailing whitespace. -/
def pyStrip (s : List Char) : List Char :=
  ((s.dropWhile Char.isWhitespace).reverse.dropWhile Char.isWhitespace).reverse

/-- Python `s.startswith(pat)`. -/
def pyStartsWith (pat s : List Char) : Bool :=
  pat.isPrefixOf s

/-- Python `str(n)` for an integer, as a list of characters. -/
def intChars (n : Int) : List Char :=
  (toString n).data

/-! ## format_delay (source lines 136–165) -/

/-- The "on time" marker string the program uses. -/
def onTimeMarker : List Char := "🟢 On time".data

/-- Embedding of `format_delay(delay_seconds)`: formats a nullable signed
delay in seconds for display (source lines 136–165). -/
def format_delay : Option Int → List Char
  | none => onTimeMarker
  | some d =>
    if d = 0 then onTimeMarker
    else if d > 0 then
      if d < 60 then "🟡 +".data ++ intChars d ++ "s".data
      else
        let minutes := d / 60
        let seconds := d % 60
        if seconds = 0 then "🟡 +".data ++ intChars minutes ++ "min".data
        else "🟡 +".data ++ intChars minutes ++ "min ".data ++ intChars seconds ++ "s".data
    else
      let abs_delay := |d|
      if abs_delay < 60 then "🟢 -".data ++ intChars abs_delay ++ "s".data
      else
        let minutes := abs_delay / 60
        let seconds := abs_delay % 60
        if seconds = 0 then "🟢 -".data ++ intChars minutes ++ "min".data
        else "🟢 -".data ++ intChars minutes ++ "min ".data ++ intChars seconds ++ "s".data

/-! ## format_departure_time (source lines 119–134) -/

/-- Embedding of `format_departure_time(departure_str)` (source lines
119–134).  The `try`/`except` of the source cannot fire on the taken
branches: `split('T')[1]` is guarded by `'T' in departure_str`. -/
def format_departure_time (s : List Char) : List Char :=
  if pyIn ['T'] s then
    let time_part := (pySplit1 'T' s).getD 1 []
    let time_part :=
      if pyIn ['+'] time_part then (pySplit1 '+' time_part).getD 0 []
      else time_part
    time_part.take 5
  else s

/-! ## Config loader (source lines 12–47) -/

/-- A configured route, one per well-formed config line
(`departure|destination|bus_number`, fields stripped). -/
structure RouteSpec where
  departure : List Char
  destination : List Char
  bus_number : List Char
deriving DecidableEq

/-- Outcome of opening and reading the config file, the external effect of
`load_config`: the list of lines on success (each line as Python's file
iteration yields it, before `strip`), or one of the handled exceptions. -/
inductive ReadResult where
  | ok (lines : List (List Char))
  | fileNotFound
  | otherError
deriving DecidableEq

/-- The per-line loop of `load_config` (source lines 20–37), carrying the
1-based number `n` of the first line of the remaining list.  Returns the
routes together with the warnings printed for malformed lines, each
warning carrying the line number and the (stripped) line text. -/
def load_config_lines (n : Nat) : List (List Char) → List RouteSpec × List (Nat × List Char)
  | [] => ([], [])
  | raw :: rest =>
    let line := pyStrip raw
    if line = [] ∨ pyStartsWith ['#'] line = true then
      load_config_lines (n + 1) rest
    else
      let parts := pySplit1 '|' line
      if parts.length = 3 then
        let r : RouteSpec :=
          { departure := pyStrip (parts.getD 0 [])
            destination := pyStrip (parts.getD 1 [])
            bus_number := pyStrip (parts.getD 2 []) }
        let res := load_config_lines (n + 1) rest
        (r :: res.1, res.2)
      else
        let res := load_config_lines (n + 1) rest
        (res.1, (n, line) :: res.2)

/-- Embedding of `load_config(config_file)` (source lines 12–47): on a
successful read it processes the lines starting at line number 1; a
missing file or any other read error degrades to an empty route list. -/
def load_config : ReadResult → List RouteSpec × List (Nat × List Char)
  | .ok lines => load_config_lines 1 lines
  | .fileNotFound => ([], [])
  | .otherError => ([], [])

/-! ## Stationboard data model and fetch outcome -/

/-- The nested `stop` object of a stationboard connection: scheduled
departure string, optional delay in seconds, optional platform. -/
structure StopInfo where
  departure : Option (List Char)
  delay : Option Int
  platform : Option (List Char)
deriving DecidableEq

/-- One connection of the upstream stationboard response: line number
(`number`), destination text (`to`), and nested stop data. -/
structure Connection where
  number : Option (List Char)
  «to» : Option (List Char)
  stop : Option StopInfo
deriving DecidableEq

/-- `connection.get('stop', {})`: a missing `stop` object behaves as an
empty dict, all of whose lookups miss. -/
def stopInfo (c : Connection) : StopInfo :=
  c.stop.getD ⟨none, none, none⟩

/-- Outcome of the stationboard HTTP request, the external effect of
`get_bus_departures`: the parsed `stationboard` list on success
(a missing key defaults to `[]`, folded into `success`), a
`requests.exceptions.RequestException` (network error, timeout, or the
non-2xx raise of `raise_for_status`), or any other exception (such as a
malformed JSON body in `response.json()`). -/
inductive FetchResult where
  | success (stationboard : List Connection)
  | requestException
  | otherException

/-- The external datetime library: `parseInstant` models
`datetime.fromisoformat` followed by `astimezone(Europe/Zurich)` — it
yields the denoted instant in epoch seconds, or `none` when parsing
raises; `isoformat` models `dt.isoformat()` of the Europe/Zurich zoned
datetime at a given instant. -/
structure TimeEnv where
  parseInstant : List Char → Option Int
  isoformat : Int → List Char

/-! ## get_bus_departures (source lines 49–117) -/

/-- The timezone-notation fix of source lines 80–83: rewrite a colonless
`+0200`/`-0200` offset into colon form. -/
def fixTz (s : List Char) : List Char :=
  if pyIn ("+0200".data) s then pyReplace ("+0200".data) ("+02:00".data) s
  else if pyIn ("-0200".data) s then pyReplace ("-0200".data) ("-02:00".data) s
  else s

/-- Source line 86 applied to the fixed departure string: replace a
trailing-`Z` UTC marker and parse, yielding the Europe/Zurich instant
(`none` when `fromisoformat` raises). -/
def zurichInstant (env : TimeEnv) (s : List Char) : Option Int :=
  env.parseInstant (pyReplace ("Z".data) ("+00:00".data) s)

/-- One departure record as appended at source lines 97–105. -/
structure DepartureRecord where
  time : List Char
  fromStop : List Char
  «to» : List Char
  bus : List Char
  delay : List Char
  platform : List Char
  departure_timestamp : List Char
deriving DecidableEq

/-- The record appended at source lines 97–105 for a connection `c` whose
(timezone-fixed) departure string came from `s` and parsed to instant
`dt`. -/
def builtRecord (env : TimeEnv) (stop_name bus_number : List Char) (c : Connection)
    (s : List Char) (dt : Int) : DepartureRecord :=
  let delay := (stopInfo c).delay
  let platform := (stopInfo c).platform.getD ("N/A".data)
  { time := format_departure_time (fixTz s)
    fromStop := stop_name
    «to» := c.«to».getD []
    bus := bus_number
    delay := if delay.isSome then format_delay delay else onTimeMarker
    platform := platform
    departure_timestamp := env.isoformat dt }

/-- The body of the `for connection in data.get('stationboard', [])` loop
(source lines 68–108) for one connection: `some` record when the
connection passes the line/destination filter, has a truthy departure
string that parses, and falls strictly inside the look-ahead window;
`none` when it is skipped for any reason (including a parse exception,
source lines 106–108).  `Option.bind` renders the "if absent, skip"
control flow. -/
def processConnection (env : TimeEnv) (stop_name bus_number destination : List Char)
    (hours_ahead now : Int) (c : Connection) : Option DepartureRecord :=
  let connection_to := c.«to».getD []
  if c.number = some bus_number ∧ pyIn destination connection_to = true then
    (stopInfo c).departure.bind fun departure_time0 =>
      if departure_time0 = [] then none
      else
        let departure_time := fixTz departure_time0
        (zurichInstant env departure_time).bind fun dt =>
          if now < dt ∧ dt - now < hours_ahead * 3600 then
            some (builtRecord env stop_name bus_number c departure_time0 dt)
          else none
  else none

/-- Embedding of `get_bus_departures(stop_name, bus_number, destination,
limit, hours_ahead)` (source lines 49–117).  `limit` is only a request
parameter; `now` is the current Europe/Zurich instant; `fetch` is the
outcome of the HTTP request.  Both exception handlers (source lines
112–117) return the empty list. -/
def get_bus_departures (env : TimeEnv) (stop_name bus_number destination : List Char)
    (_limit : Nat) (hours_ahead now : Int) (fetch : FetchResult) : List DepartureRecord :=
  match fetch with
  | .success conns => conns.filterMap (processConnection env stop_name bus_number destination hours_ahead now)
  | .requestException => []
  | .otherException => []

/-! ## /api/bus_departures aggregation (source lines 184–209) -/

/-- Python string `<`: strict lexicographic comparison by code point. -/
def lexLt : List Char → List Char → Bool
  | [], [] => false
  | [], _ :: _ => true
  | _ :: _, [] => false
  | a :: as_, b :: bs =>
    if a.toNat < b.toNat then true
    else if b.toNat < a.toNat then false
    else lexLt as_ bs

/-- Insert a record into a list, before the first element whose
`departure_timestamp` key is not strictly below the new record's — the
insertion step of a stable sort by the string key, equivalent to the
stable `list.sort(key=...)` of source line 201. -/
def insertByTs (x : DepartureRecord) : List DepartureRecord → List DepartureRecord
  | [] => [x]
  | y :: ys =>
    if lexLt y.departure_timestamp x.departure_timestamp then y :: insertByTs x ys
    else x :: y :: ys

/-- Stable sort of records ascending by the `departure_timestamp` string
(source line 201: `all_departures.sort(key=lambda x: x.get('departure_timestamp', ''))`). -/
def sortByTs : List DepartureRecord → List DepartureRecord
  | [] => []
  | x :: xs => insertByTs x (sortByTs xs)

/-- The data-producing core of the `/api/bus_departures` endpoint (source
lines 188–201): fetch each configured route's departures with `limit=50`,
concatenate, and sort by the `departure_timestamp` string.  Each route is
paired with the outcome of its own HTTP request. -/
def bus_departures_core (env : TimeEnv) (hours_ahead now : Int)
    (routeFetches : List (RouteSpec × FetchResult)) : List DepartureRecord :=
  let all_departures :=
    (routeFetches.map fun rf =>
      get_bus_departures env rf.1.departure rf.1.bus_number rf.1.destination 50 hours_ahead now rf.2).flatten
  sortByTs all_departures

/-! ## Denotation of canonical zoned ISO strings

To state what instant a produced `departure_timestamp` string denotes, we
give the standard denotation of the canonical form
`YYYY-MM-DDTHH:MM:SS±HH:MM` that `dt.isoformat()` produces for a
seconds-precision zoned datetime. -/

/-- Days from 1970-01-01 to the given civil date (proleptic Gregorian),
Howard Hinnant's `days_from_civil` algorithm. -/
def daysFromCivil (y m d : Int) : Int :=
  let y := if m ≤ 2 then y - 1 else y
  let era := (if 0 ≤ y then y else y - 399) / 400
  let yoe := y - era * 400
  let mp := (m + 9) % 12
  let doy := (153 * mp + 2) / 5 + d - 1
  let doe := yoe * 365 + yoe / 4 - yoe / 100 + doy
  era * 146097 + doe - 719468

/-- Value of a string of decimal digits. -/
def digitsVal (l : List Char) : Int :=
  (l.foldl (fun a c => a * 10 + (c.toNat - 48)) 0 : Nat)

/-- The instant (epoch seconds) denoted by a canonical zoned ISO string
`YYYY-MM-DDTHH:MM:SS±HH:MM` (fixed field positions). -/
def isoToInstant (s : List Char) : Int :=
  let y := digitsVal (s.take 4)
  let mo := digitsVal ((s.drop 5).take 2)
  let d := digitsVal ((s.drop 8).take 2)
  let h := digitsVal ((s.drop 11).take 2)
  let mi := digitsVal ((s.drop 14).take 2)
  let sec := digitsVal ((s.drop 17).take 2)
  let offSign : Int := if s.getD 19 '+' = '-' then -1 else 1
  let oh := digitsVal ((s.drop 20).take 2)
  let om := digitsVal ((s.drop 23).take 2)
  daysFromCivil y mo d * 86400 + h * 3600 + mi * 60 + sec - offSign * (oh * 3600 + om * 60)

/-! ## Concrete data used by witness theorems -/

/-- A sample environment whose parser maps every string to the instant
`k`, for exercising theorems at concrete inputs. -/
def envAt (k : Int) : TimeEnv where
  parseInstant _ := some k
  isoformat t := intChars t

/-- A sample environment whose parser always fails. -/
def envNone : TimeEnv where
  parseInstant _ := none
  isoformat t := intChars t

/-- A sample stationboard connection on line 1 towards Ebikon. -/
def sampleConn : Connection :=
  { number := some "1".data
    «to» := some "Luzern, Ebikon Post".data
    stop := some
      { departure := some "2025-10-26T14:30:00+02:00".data
        delay := some 90
        platform := some "A".data } }

/-! ## The spec's wording of the time display (for C9) -/

/-- The time-display transform as the specification words it: "the
substring between the date/time separator and the first `+`/end,
truncated to 5 characters".  Stated independently of the source's
`split`-based implementation, for comparison with it. -/
def specTimeDisplay (s : List Char) : List Char :=
  (((s.dropWhile (fun c => c != 'T')).drop 1).takeWhile (fun c => c != '+')).take 5

/-! ## Sort order and data for the C4 analysis -/

/-- The non-strict key order of the aggregation sort: record `a` may
precede record `b` when `b`'s timestamp string is not lexicographically
below `a`'s. -/
def tsLe (a b : DepartureRecord) : Prop :=
  lexLt b.departure_timestamp a.departure_timestamp = false

/-- Environment for the DST counterexample: on 2025-10-26 Europe/Zurich
leaves summer time at 01:00 UTC, so instant 1761437400 (00:10 UTC) renders
as `02:10:00+02:00` and the LATER instant 1761440700 (01:05 UTC) renders
as `02:05:00+01:00`. -/
def ceEnv : TimeEnv where
  parseInstant s :=
    if s = "2025-10-26T02:10:00+02:00".data then some 1761437400
    else if s = "2025-10-26T02:05:00+01:00".data then some 1761440700
    else none
  isoformat t :=
    if t = 1761437400 then "2025-10-26T02:10:00+02:00".data
    else if t = 1761440700 then "2025-10-26T02:05:00+01:00".data
    else []

/-- Connection departing at the earlier instant (00:10 UTC, still CEST). -/
def ceConnEarly : Connection :=
  { number := some "1".data
    «to» := some "Ebikon".data
    stop := some { departure := some "2025-10-26T02:10:00+02:00".data
                   delay := none, platform := none } }

/-- Connection departing at the later instant (01:05 UTC, already CET). -/
def ceConnLate : Connection :=
  { number := some "7".data
    «to» := some "Root".data
    stop := some { departure := some "2025-10-26T02:05:00+01:00".data
                   delay := none, platform := none } }

def ceRouteEarly : RouteSpec :=
  { departure := "Luzern, Bahnhof".data, destination := "Ebikon".data, bus_number := "1".data }

def ceRouteLate : RouteSpec :=
  { departure := "Luzern, Bahnhof".data, destination := "Root".data, bus_number := "7".data }

/-- The aggregated output of the two counterexample routes, `now` a
little before both departures. -/
def ceOutput : List DepartureRecord :=
  bus_departures_core ceEnv 2 1761436000
    [(ceRouteEarly, .success [ceConnEarly]), (ceRouteLate, .success [ceConnLate])]

/-- The record the earlier-instant connection produces. -/
def ceRecEarly : DepartureRecord :=
  { time := "02:10".data, fromStop := "Luzern, Bahnhof".data, «to» := "Ebikon".data
    bus := "1".data, delay := onTimeMarker, platform := "N/A".data
    departure_timestamp := "2025-10-26T02:10:00+02:00".data }

/-- The record the later-instant connection produces. -/
def ceRecLate : DepartureRecord :=
  { time := "02:05".data, fromStop := "Luzern, Bahnhof".data, «to» := "Root".data
    bus := "7".data, delay := onTimeMarker, platform := "N/A".data
    departure_timestamp := "2025-10-26T02:05:00+01:00".data }

/-! ## Lemmas about the string primitives -/

lemma pyIn_singleton (ch : Char) (l : List Char) : pyIn [ch] l = true ↔ ch ∈ l := by
  induction l with
  | nil =>
    simp only [pyIn, List.isEmpty_cons]
    simp
  | cons c t ih =>
    simp only [pyIn, List.isPrefixOf, Bool.or_eq_true, Bool.and_eq_true, beq_iff_eq, ih,
      List.mem_cons]
    constructor
    · rintro (⟨h, -⟩ | h)
      · exact Or.inl h
      · exact Or.inr h
    · rintro (h | h)
      · exact Or.inl ⟨h, by simp [List.isPrefixOf]⟩
      · exact Or.inr h

lemma pySplit1_ne_nil (ch : Char) (l : List Char) : pySplit1 ch l ≠ [] := by
  cases l with
  | nil => simp [pySplit1]
  | cons c t =>
    simp only [pySplit1]
    split
    · simp
    · split <;> simp

lemma pySplit1_of_not_mem {ch : Char} {l : List Char} (hm : ch ∉ l) :
    pySplit1 ch l = [l] := by
  induction l with
  | nil => rfl
  | cons c t ih =>
    simp only [List.mem_cons, not_or] at hm
    have hc : ¬ c = ch := fun h => hm.1 h.symm
    simp only [pySplit1, if_neg hc, ih hm.2]

lemma pySplit1_append {ch : Char} {a : List Char} (b : List Char) (ha : ch ∉ a) :
    pySplit1 ch (a ++ ch :: b) = a :: pySplit1 ch b := by
  induction a with
  | nil => simp [pySplit1]
  | cons x a' ih =>
    simp only [List.mem_cons, not_or] at ha
    have hx : ¬ x = ch := fun h => ha.1 h.symm
    simp only [List.cons_append, pySplit1, if_neg hx, List.append_eq, ih ha.2]

lemma pySplit1_getD_zero (ch : Char) (l : List Char) :
    (pySplit1 ch l).getD 0 [] = l.takeWhile (fun c => c != ch) := by
  induction l with
  | nil => rfl
  | cons c t ih =>
    by_cases hc : c = ch
    · subst hc
      simp [pySplit1, List.takeWhile]
    · cases hsp : pySplit1 ch t with
      | nil => exact absurd hsp (pySplit1_ne_nil ch t)
      | cons h r =>
        rw [hsp] at ih
        have hbne : (c != ch) = true := by
          simp only [bne_iff_ne, ne_eq]
          exact hc
        simp only [pySplit1, if_neg hc, hsp, List.takeWhile, hbne]
        simp only [List.getD, List.get?, Option.getD] at ih ⊢
        simp [ih]

lemma takeWhile_of_not_mem {ch : Char} {l : List Char} (hm : ch ∉ l) :
    l.takeWhile (fun c => c != ch) = l := by
  induction l with
  | nil => rfl
  | cons c t ih =>
    simp only [List.mem_cons, not_or] at hm
    have hc : (c != ch) = true := by
      simp only [bne_iff_ne, ne_eq]
      exact fun h => hm.1 h.symm
    simp only [List.takeWhile, hc, ih hm.2]

lemma dropWhile_to_sep {ch : Char} {a : List Char} (b : List Char) (ha : ch ∉ a) :
    (a ++ ch :: b).dropWhile (fun c => c != ch) = ch :: b := by
  induction a with
  | nil => simp [List.dropWhile]
  | cons x a' ih =>
    simp only [List.mem_cons, not_or] at ha
    have hx : (x != ch) = true := by
      simp only [bne_iff_ne, ne_eq]
      exact fun h => ha.1 h.symm
    simp only [List.cons_append, List.dropWhile, hx, List.append_eq, ih ha.2]

lemma count_eq_one_split {ch : Char} {l : List Char} (h1 : l.count ch = 1) :
    ∃ a b, l = a ++ ch :: b ∧ ch ∉ a ∧ ch ∉ b := by
  induction l with
  | nil => simp at h1
  | cons c t ih =>
    by_cases hc : c = ch
    · subst hc
      have ht : t.count c = 0 := by
        rw [List.count_cons_self] at h1
        omega
      exact ⟨[], t, rfl, by simp, List.count_eq_zero.mp ht⟩
    · have ht : t.count ch = 1 := by
        rw [List.count_cons_of_ne (fun h => hc h.symm)] at h1
        exact h1
      obtain ⟨a, b, rfl, ha, hb⟩ := ih ht
      have hnc : ¬ ch = c := fun h => hc h.symm
      refine ⟨c :: a, b, rfl, ?_, hb⟩
      simp only [List.mem_cons, not_or]
      exact ⟨hnc, ha⟩

/-! ## Lemmas about the lexicographic order and the sort -/

lemma lexLt_nil_right (a : List Char) : lexLt a [] = false := by
  cases a <;> rfl

lemma lexLt_asymm : ∀ (a b : List Char), lexLt a b = true → lexLt b a = false := by
  intro a
  induction a with
  | nil =>
    intro b h
    exact lexLt_nil_right b
  | cons x xs ih =>
    intro b h
    cases b with
    | nil => rw [lexLt_nil_right] at h; exact absurd h (by simp)
    | cons y ys =>
      simp only [lexLt] at h ⊢
      by_cases h1 : x.toNat < y.toNat
      · rw [if_neg (by omega), if_pos h1]
      · rw [if_neg h1] at h
        by_cases h2 : y.toNat < x.toNat
        · rw [if_pos h2] at h; exact absurd h (by simp)
        · rw [if_neg h2] at h
          rw [if_neg h2, if_neg h1]
          exact ih ys h

lemma lexLt_false_trans :
    ∀ (a b c : List Char), lexLt b a = false → lexLt c b = false → lexLt c a = false := by
  intro a
  induction a with
  | nil =>
    intro b c h1 h2
    exact lexLt_nil_right c
  | cons x xs ih =>
    intro b c h1 h2
    cases b with
    | nil => simp [lexLt] at h1
    | cons y ys =>
      cases c with
      | nil => simp [lexLt] at h2
      | cons z zs =>
        simp only [lexLt] at h1 h2 ⊢
        by_cases hyx : y.toNat < x.toNat
        · rw [if_pos hyx] at h1; exact absurd h1 (by simp)
        · rw [if_neg hyx] at h1
          by_cases hzy : z.toNat < y.toNat
          · rw [if_pos hzy] at h2; exact absurd h2 (by simp)
          · rw [if_neg hzy] at h2
            by_cases hzx : z.toNat < x.toNat
            · exact absurd hzx (by omega)
            · rw [if_neg hzx]
              by_cases hxz : x.toNat < z.toNat
              · rw [if_pos hxz]
              · rw [if_neg hxz]
                have hxy : ¬ x.toNat < y.toNat := by omega
                have hyz : ¬ y.toNat < z.toNat := by omega
                rw [if_neg hxy] at h1
                rw [if_neg hyz] at h2
                exact ih ys zs h1 h2

lemma insertByTs_perm (x : DepartureRecord) (l : List DepartureRecord) :
    List.Perm (insertByTs x l) (x :: l) := by
  induction l with
  | nil => exact List.Perm.refl _
  | cons y ys ih =>
    simp only [insertByTs]
    split
    · exact (ih.cons y).trans (List.Perm.swap x y ys)
    · exact List.Perm.refl _

lemma sortByTs_perm (l : List DepartureRecord) : List.Perm (sortByTs l) l := by
  induction l with
  | nil => exact List.Perm.refl _
  | cons x xs ih => exact (insertByTs_perm x (sortByTs xs)).trans (ih.cons x)

lemma pairwise_insertByTs {x : DepartureRecord} {l : List DepartureRecord}
    (h : l.Pairwise tsLe) : (insertByTs x l).Pairwise tsLe := by
  induction l with
  | nil => simp [insertByTs]
  | cons y ys ih =>
    rcases List.pairwise_cons.mp h with ⟨hy, hys⟩
    simp only [insertByTs]
    split
    · next hlt =>
      refine List.pairwise_cons.mpr ⟨?_, ih hys⟩
      intro z hz
      rcases List.mem_cons.mp ((insertByTs_perm x ys).mem_iff.mp hz) with rfl | hz'
      · exact lexLt_asymm _ _ hlt
      · exact hy z hz'
    · next hnlt =>
      have hxy : tsLe x y := by
        revert hnlt
        unfold tsLe
        cases lexLt y.departure_timestamp x.departure_timestamp <;> simp
      refine List.pairwise_cons.mpr ⟨?_, h⟩
      intro z hz
      rcases List.mem_cons.mp hz with rfl | hz'
      · exact hxy
      · exact lexLt_false_trans _ _ _ hxy (hy z hz')

lemma sortByTs_pairwise (l : List DepartureRecord) : (sortByTs l).Pairwise tsLe := by
  induction l with
  | nil => simp [sortByTs]
  | cons x xs ih => exact pairwise_insertByTs ih

/-! ## Characterizations of processConnection -/

lemma processConnection_eq_none_of_filter {env : TimeEnv} {sn bn dst : List Char}
    {h now : Int} {c : Connection}
    (hc : ¬ (c.number = some bn ∧ pyIn dst (c.«to».getD []) = true)) :
    processConnection env sn bn dst h now c = none := by
  simp only [processConnection, if_neg hc]

lemma processConnection_eq_some {env : TimeEnv} {sn bn dst : List Char} {h now : Int}
    {c : Connection} {r : DepartureRecord}
    (hr : processConnection env sn bn dst h now c = some r) :
    c.number = some bn ∧ pyIn dst (c.«to».getD []) = true ∧
    ∃ s dt, (stopInfo c).departure = some s ∧ s ≠ [] ∧
      zurichInstant env (fixTz s) = some dt ∧
      now < dt ∧ dt - now < h * 3600 ∧
      r = builtRecord env sn bn c s dt := by
  by_cases hc : (c.number = some bn ∧ pyIn dst (c.«to».getD []) = true)
  · refine ⟨hc.1, hc.2, ?_⟩
    simp only [processConnection, if_pos hc] at hr
    cases hdep : (stopInfo c).departure with
    | none => rw [hdep] at hr; simp at hr
    | some s0 =>
      rw [hdep, Option.some_bind] at hr
      by_cases hse : s0 = []
      · rw [if_pos hse] at hr; simp at hr
      · rw [if_neg hse] at hr
        cases hdt : zurichInstant env (fixTz s0) with
        | none => rw [hdt] at hr; simp at hr
        | some dt =>
          rw [hdt, Option.some_bind] at hr
          by_cases hw : now < dt ∧ dt - now < h * 3600
          · rw [if_pos hw] at hr
            exact ⟨s0, dt, rfl, hse, hdt, hw.1, hw.2, (Option.some_inj.mp hr).symm⟩
          · rw [if_neg hw] at hr; simp at hr
  · rw [processConnection_eq_none_of_filter hc] at hr
    simp at hr

lemma processConnection_eq_none_of_parse {env : TimeEnv} {sn bn dst : List Char}
    {h now : Int} {c : Connection}
    (hd : (stopInfo c).departure = none ∨
      ∃ s, (stopInfo c).departure = some s ∧ zurichInstant env (fixTz s) = none) :
    processConnection env sn bn dst h now c = none := by
  by_cases hc : (c.number = some bn ∧ pyIn dst (c.«to».getD []) = true)
  · simp only [processConnection, if_pos hc]
    rcases hd with hd | ⟨s, hs, hp⟩
    · rw [hd, Option.none_bind]
    · rw [hs, Option.some_bind]
      by_cases hse : s = []
      · rw [if_pos hse]
      · rw [if_neg hse, hp, Option.none_bind]
  · exact processConnection_eq_none_of_filter hc

lemma processConnection_eq_none_of_window {env : TimeEnv} {sn bn dst : List Char}
    {h now : Int} {c : Connection} {s : List Char} {dt : Int}
    (hs : (stopInfo c).departure = some s)
    (hp : zurichInstant env (fixTz s) = some dt)
    (hw : ¬ (now < dt ∧ dt - now < h * 3600)) :
    processConnection env sn bn dst h now c = none := by
  by_cases hc : (c.number = some bn ∧ pyIn dst (c.«to».getD []) = true)
  · simp only [processConnection, if_pos hc]
    rw [hs, Option.some_bind]
    by_cases hse : s = []
    · rw [if_pos hse]
    · rw [if_neg hse, hp, Option.some_bind, if_neg hw]
  · exact processConnection_eq_none_of_filter hc

/-! ## Claim theorems -/

/-- Claim C6: every upstream failure of the stationboard query (network
failure, timeout, non-2xx status, malformed body) makes
`get_bus_departures` return the empty list instead of raising, and
`load_config` likewise returns an empty result when the config file is
missing or any other read error occurs. -/
theorem claim_C6_errors_degrade_to_empty :
    (∀ env sn bn dst lim h now,
      get_bus_departures env sn bn dst lim h now .requestException = []) ∧
    (∀ env sn bn dst lim h now,
      get_bus_departures env sn bn dst lim h now .otherException = []) ∧
    load_config .fileNotFound = ([], []) ∧
    load_config .otherError = ([], []) :=
  ⟨fun _ _ _ _ _ _ _ => rfl, fun _ _ _ _ _ _ _ => rfl, rfl, rfl⟩

/-- Claim C3: `format_delay` returns the "on time" marker for `none` or
`0`; `"+Ns"` with the late marker for positive delay below a minute;
`"+Mmin"` or `"+Mmin Ss"` by integer division and remainder for positive
delay of a minute or more; the same magnitude rules on the absolute value
with a minus sign and the green marker for negative delay; in particular
`90 ↦ "+1min 30s"`, `-45 ↦ "-45s"` (early marker), `125 ↦ "+2min 5s"`. -/
theorem claim_C3_format_delay :
    format_delay none = onTimeMarker ∧
    format_delay (some 0) = onTimeMarker ∧
    (∀ d : Int, 0 < d → d < 60 →
      format_delay (some d) = "🟡 +".data ++ intChars d ++ "s".data) ∧
    (∀ d : Int, 60 ≤ d → d % 60 = 0 →
      format_delay (some d) = "🟡 +".data ++ intChars (d / 60) ++ "min".data) ∧
    (∀ d : Int, 60 ≤ d → d % 60 ≠ 0 →
      format_delay (some d) =
        "🟡 +".data ++ intChars (d / 60) ++ "min ".data ++ intChars (d % 60) ++ "s".data) ∧
    (∀ d : Int, d < 0 → |d| < 60 →
      format_delay (some d) = "🟢 -".data ++ intChars |d| ++ "s".data) ∧
    (∀ d : Int, d < 0 → 60 ≤ |d| → |d| % 60 = 0 →
      format_delay (some d) = "🟢 -".data ++ intChars (|d| / 60) ++ "min".data) ∧
    (∀ d : Int, d < 0 → 60 ≤ |d| → |d| % 60 ≠ 0 →
      format_delay (some d) =
        "🟢 -".data ++ intChars (|d| / 60) ++ "min ".data ++ intChars (|d| % 60) ++ "s".data) ∧
    format_delay (some 90) = "🟡 +1min 30s".data ∧
    format_delay (some (-45)) = "🟢 -45s".data ∧
    format_delay (some 125) = "🟡 +2min 5s".data := by
  refine ⟨rfl, by decide, ?_, ?_, ?_, ?_, ?_, ?_, by decide, by decide, by decide⟩
  · intro d h1 h2
    have h0 : ¬ d = 0 := by omega
    have hp : d > 0 := h1
    simp only [format_delay, if_neg h0, if_pos hp, if_pos h2]
  · intro d h1 h2
    have h0 : ¬ d = 0 := by omega
    have hp : d > 0 := by omega
    have hn : ¬ d < 60 := by omega
    simp only [format_delay, if_neg h0, if_pos hp, if_neg hn, if_pos h2]
  · intro d h1 h2
    have h0 : ¬ d = 0 := by omega
    have hp : d > 0 := by omega
    have hn : ¬ d < 60 := by omega
    simp only [format_delay, if_neg h0, if_pos hp, if_neg hn, if_neg h2]
  · intro d h1 h2
    have h0 : ¬ d = 0 := by omega
    have hp : ¬ d > 0 := by omega
    simp only [format_delay, if_neg h0, if_neg hp, if_pos h2]
  · intro d h1 h2 h3
    have h0 : ¬ d = 0 := by omega
    have hp : ¬ d > 0 := by omega
    have hn : ¬ |d| < 60 := by omega
    simp only [format_delay, if_neg h0, if_neg hp, if_neg hn, if_pos h3]
  · intro d h1 h2 h3
    have h0 : ¬ d = 0 := by omega
    have hp : ¬ d > 0 := by omega
    have hn : ¬ |d| < 60 := by omega
    simp only [format_delay, if_neg h0, if_neg hp, if_neg hn, if_neg h3]

/-- Witness for C3: the general positive sub-minute case evaluated at a
concrete delay of 30 seconds. -/
theorem claim_C3_format_delay_witness :
    format_delay (some 30) = "🟡 +".data ++ intChars 30 ++ "s".data :=
  claim_C3_format_delay.2.2.1 30 (by decide) (by decide)

/-! ### C1: open look-ahead window -/

/-- Claim C1: a connection contributes a record only if its parsed
departure instant `dt` satisfies `now < dt` and `dt - now < hours_ahead *
3600` strictly; a departure exactly at `now`, or exactly at
`now + hours_ahead*3600`, is excluded. -/
theorem claim_C1_open_window :
    (∀ env sn bn dst lim h now conns r,
        r ∈ get_bus_departures env sn bn dst lim h now (.success conns) →
        ∃ c ∈ conns, ∃ s dt, (stopInfo c).departure = some s ∧
          zurichInstant env (fixTz s) = some dt ∧
          now < dt ∧ dt - now < h * 3600) ∧
    (∀ env sn bn dst h now c s,
        (stopInfo c).departure = some s →
        zurichInstant env (fixTz s) = some now →
        processConnection env sn bn dst h now c = none) ∧
    (∀ env sn bn dst h now c s,
        (stopInfo c).departure = some s →
        zurichInstant env (fixTz s) = some (now + h * 3600) →
        processConnection env sn bn dst h now c = none) := by
  refine ⟨?_, ?_, ?_⟩
  · intro env sn bn dst lim h now conns r hr
    simp only [get_bus_departures] at hr
    obtain ⟨c, hc, hpc⟩ := List.mem_filterMap.mp hr
    obtain ⟨-, -, s, dt, hs, -, hdt, h1, h2, -⟩ := processConnection_eq_some hpc
    exact ⟨c, hc, s, dt, hs, hdt, h1, h2⟩
  · intro env sn bn dst h now c s hs hp
    exact processConnection_eq_none_of_window hs hp (by omega)
  · intro env sn bn dst h now c s hs hp
    exact processConnection_eq_none_of_window hs hp (by omega)

/-- Witness for C1: a concrete connection whose departure parses exactly
to `now` yields no record (boundary excluded). -/
theorem claim_C1_open_window_witness :
    processConnection (envAt 1000) "S".data "1".data "Ebikon".data 2 1000 sampleConn = none :=
  claim_C1_open_window.2.1 (envAt 1000) "S".data "1".data "Ebikon".data 2 1000 sampleConn
    ("2025-10-26T14:30:00+02:00".data) rfl rfl

/-! ### C2: bus line and destination filter -/

/-- Claim C2: a connection is kept only if its `number` equals the
requested bus line as exact text and its destination text contains the
requested substring; in particular a requested line `"1"` never matches a
connection on line `"11"`. -/
theorem claim_C2_bus_destination_filter :
    (∀ env sn bn dst h now c r,
        processConnection env sn bn dst h now c = some r →
        c.number = some bn ∧ pyIn dst (c.«to».getD []) = true) ∧
    (∀ env sn dst h now c, c.number = some ("11".data) →
        processConnection env sn ("1".data) dst h now c = none) := by
  constructor
  · intro env sn bn dst h now c r hr
    exact ⟨(processConnection_eq_some hr).1, (processConnection_eq_some hr).2.1⟩
  · intro env sn dst h now c hc
    apply processConnection_eq_none_of_filter
    rintro ⟨h1, -⟩
    rw [hc] at h1
    exact absurd (Option.some_inj.mp h1) (by decide)

/-- Witness for C2: a concrete kept connection indeed has the requested
line number and a destination containing the requested substring. -/
theorem claim_C2_bus_destination_filter_witness :
    sampleConn.number = some "1".data ∧
      pyIn "Ebikon".data (sampleConn.«to».getD []) = true :=
  claim_C2_bus_destination_filter.1 (envAt 1000) "S".data "1".data "Ebikon".data 2 0 sampleConn
    (builtRecord (envAt 1000) "S".data "1".data sampleConn
      "2025-10-26T14:30:00+02:00".data 1000) (by decide)

/-! ### C5: config line handling -/

/-- Claim C5: blank and `#`-prefixed lines are skipped silently; a
non-skipped line splitting on `|` into exactly 3 fields yields exactly one
`RouteSpec` with trimmed fields; any other field count yields a warning
with the 1-based line number and the line text and skips only that line;
duplicates are kept; and the two-line scenario
`"Luzern, Bahnhof|Ebikon|1"` / `"bad|line"` loads one route and one
warning for line 2. -/
theorem claim_C5_load_config :
    (∀ (n : Nat) (raw : List Char) rest,
        (pyStrip raw = [] ∨ pyStartsWith ['#'] (pyStrip raw) = true) →
        load_config_lines n (raw :: rest) = load_config_lines (n + 1) rest) ∧
    (∀ (n : Nat) (raw : List Char) rest,
        ¬ (pyStrip raw = [] ∨ pyStartsWith ['#'] (pyStrip raw) = true) →
        (pySplit1 '|' (pyStrip raw)).length = 3 →
        load_config_lines n (raw :: rest) =
          ({ departure := pyStrip ((pySplit1 '|' (pyStrip raw)).getD 0 [])
             destination := pyStrip ((pySplit1 '|' (pyStrip raw)).getD 1 [])
             bus_number := pyStrip ((pySplit1 '|' (pyStrip raw)).getD 2 []) }
            :: (load_config_lines (n + 1) rest).1,
           (load_config_lines (n + 1) rest).2)) ∧
    (∀ (n : Nat) (raw : List Char) rest,
        ¬ (pyStrip raw = [] ∨ pyStartsWith ['#'] (pyStrip raw) = true) →
        (pySplit1 '|' (pyStrip raw)).length ≠ 3 →
        load_config_lines n (raw :: rest) =
          ((load_config_lines (n + 1) rest).1,
           (n, pyStrip raw) :: (load_config_lines (n + 1) rest).2)) ∧
    (∀ (n : Nat) (raw : List Char),
        ¬ (pyStrip raw = [] ∨ pyStartsWith ['#'] (pyStrip raw) = true) →
        (pySplit1 '|' (pyStrip raw)).length = 3 →
        (load_config_lines n [raw, raw]).1 =
          [{ departure := pyStrip ((pySplit1 '|' (pyStrip raw)).getD 0 [])
             destination := pyStrip ((pySplit1 '|' (pyStrip raw)).getD 1 [])
             bus_number := pyStrip ((pySplit1 '|' (pyStrip raw)).getD 2 []) },
           { departure := pyStrip ((pySplit1 '|' (pyStrip raw)).getD 0 [])
             destination := pyStrip ((pySplit1 '|' (pyStrip raw)).getD 1 [])
             bus_number := pyStrip ((pySplit1 '|' (pyStrip raw)).getD 2 []) }]) ∧
    load_config (.ok ["Luzern, Bahnhof|Ebikon|1".data, "bad|line".data]) =
      ([{ departure := "Luzern, Bahnhof".data
          destination := "Ebikon".data
          bus_number := "1".data }],
       [(2, "bad|line".data)]) := by
  have hskip : ∀ (n : Nat) (raw : List Char) rest,
      (pyStrip raw = [] ∨ pyStartsWith ['#'] (pyStrip raw) = true) →
      load_config_lines n (raw :: rest) = load_config_lines (n + 1) rest := by
    intro n raw rest hc
    simp only [load_config_lines, if_pos hc]
  have hwf : ∀ (n : Nat) (raw : List Char) rest,
      ¬ (pyStrip raw = [] ∨ pyStartsWith ['#'] (pyStrip raw) = true) →
      (pySplit1 '|' (pyStrip raw)).length = 3 →
      load_config_lines n (raw :: rest) =
        ({ departure := pyStrip ((pySplit1 '|' (pyStrip raw)).getD 0 [])
           destination := pyStrip ((pySplit1 '|' (pyStrip raw)).getD 1 [])
           bus_number := pyStrip ((pySplit1 '|' (pyStrip raw)).getD 2 []) }
          :: (load_config_lines (n + 1) rest).1,
         (load_config_lines (n + 1) rest).2) := by
    intro n raw rest hc h3
    simp only [load_config_lines, if_neg hc, if_pos h3]
  have hbad : ∀ (n : Nat) (raw : List Char) rest,
      ¬ (pyStrip raw = [] ∨ pyStartsWith ['#'] (pyStrip raw) = true) →
      (pySplit1 '|' (pyStrip raw)).length ≠ 3 →
      load_config_lines n (raw :: rest) =
        ((load_config_lines (n + 1) rest).1,
         (n, pyStrip raw) :: (load_config_lines (n + 1) rest).2) := by
    intro n raw rest hc h3
    simp only [load_config_lines, if_neg hc, if_neg h3]
  refine ⟨hskip, hwf, hbad, ?_, by decide⟩
  intro n raw hc h3
  rw [hwf n raw [raw] hc h3, hwf (n + 1) raw [] hc h3]
  simp [load_config_lines]

/-- Witness for C5: the malformed-line case evaluated at line number 5
and the line `"x|y"`. -/
theorem claim_C5_load_config_witness :
    load_config_lines 5 ["x|y".data] = ([], [(5, "x|y".data)]) := by
  rw [claim_C5_load_config.2.2.1 5 "x|y".data [] (by decide) (by decide)]
  decide

/-! ### C7: a failed timestamp parse skips exactly that connection -/

/-- Claim C7: a connection whose departure timestamp is absent or fails
to parse is itself dropped, and dropping it does not disturb the records
of the other connections of the route. -/
theorem claim_C7_parse_failure_skips_one
    (env : TimeEnv) (sn bn dst : List Char) (lim : Nat) (h now : Int) (c : Connection)
    (hfail : (stopInfo c).departure = none ∨
      ∃ s, (stopInfo c).departure = some s ∧ zurichInstant env (fixTz s) = none) :
    processConnection env sn bn dst h now c = none ∧
    ∀ pre post,
      get_bus_departures env sn bn dst lim h now (.success (pre ++ c :: post)) =
        get_bus_departures env sn bn dst lim h now (.success pre) ++
          get_bus_departures env sn bn dst lim h now (.success post) := by
  have hnone : processConnection env sn bn dst h now c = none :=
    processConnection_eq_none_of_parse hfail
  refine ⟨hnone, fun pre post => ?_⟩
  simp only [get_bus_departures]
  rw [List.filterMap_append]
  simp [List.filterMap_cons, hnone]

/-- Witness for C7: with an always-failing parser, the sample connection
is dropped. -/
theorem claim_C7_parse_failure_skips_one_witness :
    processConnection envNone "S".data "1".data "Ebikon".data 2 0 sampleConn = none :=
  (claim_C7_parse_failure_skips_one envNone "S".data "1".data "Ebikon".data 50 2 0 sampleConn
    (Or.inr ⟨"2025-10-26T14:30:00+02:00".data, rfl, rfl⟩)).1

/-! ### C8: platform and delay display fields -/

/-- Claim C8: a built record's `platform` is the reported platform, or
the `"N/A"` marker when none is reported; its `delay` display is the
formatted delay when a delay is present and the "on time" marker when it
is absent. -/
theorem claim_C8_record_fields
    (env : TimeEnv) (sn bn dst : List Char) (h now : Int) (c : Connection)
    (r : DepartureRecord) (hr : processConnection env sn bn dst h now c = some r) :
    ((stopInfo c).platform = none → r.platform = "N/A".data) ∧
    (∀ p, (stopInfo c).platform = some p → r.platform = p) ∧
    ((stopInfo c).delay = none → r.delay = onTimeMarker) ∧
    (∀ d, (stopInfo c).delay = some d → r.delay = format_delay (some d)) := by
  obtain ⟨-, -, s, dt, -, -, -, -, -, hrec⟩ := processConnection_eq_some hr
  subst hrec
  refine ⟨fun hp => ?_, fun p hp => ?_, fun hd => ?_, fun d hd => ?_⟩
  · simp [builtRecord, hp]
  · simp [builtRecord, hp]
  · simp [builtRecord, hd]
  · simp [builtRecord, hd]

/-- Witness for C8: the sample connection reports platform `"A"`, and the
built record carries it through. -/
theorem claim_C8_record_fields_witness :
    (builtRecord (envAt 1000) "S".data "1".data sampleConn
      "2025-10-26T14:30:00+02:00".data 1000).platform = "A".data :=
  (claim_C8_record_fields (envAt 1000) "S".data "1".data "Ebikon".data 2 0 sampleConn
    (builtRecord (envAt 1000) "S".data "1".data sampleConn
      "2025-10-26T14:30:00+02:00".data 1000) (by decide)).2.1 "A".data rfl

/-! ### C9: time display -/

/-- Claim C9: for a raw ISO departure string (characterized by containing
the separator `T` exactly once), `format_departure_time` returns the
substring between `T` and the first `+` (or the end when no `+` is
present), truncated to its first 5 characters — the transform of
`specTimeDisplay`, operating on the raw string only. -/
theorem claim_C9_time_display (s : List Char) (h1 : s.count 'T' = 1) :
    format_departure_time s = specTimeDisplay s := by
  obtain ⟨a, b, rfl, ha, hb⟩ := count_eq_one_split h1
  have hT : pyIn ['T'] (a ++ 'T' :: b) = true :=
    (pyIn_singleton _ _).mpr (by simp)
  have hsplit : pySplit1 'T' (a ++ 'T' :: b) = a :: pySplit1 'T' b := pySplit1_append b ha
  have hsplitb : pySplit1 'T' b = [b] := pySplit1_of_not_mem hb
  have hrhs : specTimeDisplay (a ++ 'T' :: b) =
      (b.takeWhile (fun c => c != '+')).take 5 := by
    simp only [specTimeDisplay, dropWhile_to_sep b ha, List.drop_succ_cons, List.drop_zero]
  simp only [format_departure_time, if_pos hT, hsplit, hsplitb,
    List.getD_cons_succ, List.getD_cons_zero, hrhs]
  by_cases hp : pyIn ['+'] b = true
  · rw [if_pos hp, pySplit1_getD_zero]
  · have hnp : '+' ∉ b := fun hmem => hp ((pyIn_singleton _ _).mpr hmem)
    rw [if_neg hp, takeWhile_of_not_mem hnp]

/-- Witness for C9: evaluated at a concrete ISO departure string. -/
theorem claim_C9_time_display_witness :
    format_departure_time ("2025-10-26T14:30:00+02:00".data) =
      specTimeDisplay ("2025-10-26T14:30:00+02:00".data) :=
  claim_C9_time_display ("2025-10-26T14:30:00+02:00".data) (by decide)

/-! ### C10: every output record belongs to the queried route -/

/-- Claim C10: every record returned by `get_bus_departures` carries the
requested stop as its origin, the requested bus line, and a destination
containing the requested substring. -/
theorem claim_C10_output_belongs_to_route
    (env : TimeEnv) (sn bn dst : List Char) (lim : Nat) (h now : Int)
    (fetch : FetchResult) (r : DepartureRecord)
    (hr : r ∈ get_bus_departures env sn bn dst lim h now fetch) :
    r.fromStop = sn ∧ r.bus = bn ∧ pyIn dst r.«to» = true := by
  cases fetch with
  | success conns =>
    simp only [get_bus_departures] at hr
    obtain ⟨c, -, hpc⟩ := List.mem_filterMap.mp hr
    obtain ⟨-, hto, s, dt, -, -, -, -, -, hrec⟩ := processConnection_eq_some hpc
    subst hrec
    exact ⟨rfl, rfl, hto⟩
  | requestException => simp [get_bus_departures] at hr
  | otherException => simp [get_bus_departures] at hr

/-- Witness for C10: the record produced from the sample connection names
the queried stop. -/
theorem claim_C10_output_belongs_to_route_witness :
    (builtRecord (envAt 1000) "S".data "1".data sampleConn
      "2025-10-26T14:30:00+02:00".data 1000).fromStop = "S".data :=
  (claim_C10_output_belongs_to_route (envAt 1000) "S".data "1".data "Ebikon".data 50 2 0
    (.success [sampleConn])
    (builtRecord (envAt 1000) "S".data "1".data sampleConn
      "2025-10-26T14:30:00+02:00".data 1000) (by decide)).1

/-! ### C4: cross-route aggregation and sorting -/

/-- Claim C4 (amended): the aggregation concatenates every route's
records and sorts the combined list by the `departureInstant` string under
lexicographic comparison — the output is a permutation of the
concatenation, pairwise non-descending in the string key, regardless of
the order in which the routes contributed.  (Lexicographic string order
agrees with instant order only when the rendered UTC offsets agree; see
the counterexample.) -/
theorem claim_C4_lexical_sort (env : TimeEnv) (hours now : Int)
    (rfs : List (RouteSpec × FetchResult)) :
    (bus_departures_core env hours now rfs).Pairwise tsLe ∧
    List.Perm (bus_departures_core env hours now rfs)
      ((rfs.map fun rf =>
        get_bus_departures env rf.1.departure rf.1.bus_number rf.1.destination
          50 hours now rf.2).flatten) := by
  constructor
  · simp only [bus_departures_core]
    exact sortByTs_pairwise _
  · simp only [bus_departures_core]
    exact sortByTs_perm _

/-- Counterexample to C4 as stated: around the Europe/Zurich DST
fall-back, the record with the larger instant (rendered `02:05:00+01:00`,
epoch 1761440700) precedes the record with the smaller instant (rendered
`02:10:00+02:00`, epoch 1761437400) in the aggregated output, because the
sort compares the ISO strings lexically. -/
theorem claim_C4_counterexample :
    ceOutput = [ceRecLate, ceRecEarly] ∧
    isoToInstant ceRecEarly.departure_timestamp <
      isoToInstant ceRecLate.departure_timestamp := by
  constructor
  · decide
  · decide

end BusMonitor
